import Mathlib

/-!
Verification of the BMS monitor debug/decoder layer.

Shallow embedding of `src/lib/stores/debugStore.svelte.ts` (the debug log
store, frame-identifier bit extraction and the payload decoder
`parseDataValue`) and of the alarm helpers in the BMS store
(`getAlarmSeverity`).  JavaScript numbers are modelled as `Nat` where the
source only ever produces non-negative 32-bit-safe values, as `Int`/`ℚ`
where JavaScript 32-bit signed coercion or decimal scaling matters.
-/

/-- JavaScript `ToInt32`: interpret the low 32 bits of a non-negative
integer as a two's-complement signed 32-bit value.  `x << 24` and `|` in
JavaScript operate on such signed 32-bit values. -/
def toInt32 (n : Nat) : Int :=
  if n % 2 ^ 32 < 2 ^ 31 then ((n % 2 ^ 32 : Nat) : Int)
  else ((n % 2 ^ 32 : Nat) : Int) - 2 ^ 32

/-- Rendering `b.toString(16)` of a non-negative integer, then `.toUpperCase()`. -/
def hexUpper (n : Nat) : String :=
  String.map Char.toUpper (String.mk (Nat.toDigits 16 n))

/-- Model of `padStart(w, '0')`. -/
def padZero (w : Nat) (s : String) : String :=
  String.mk (List.replicate (w - s.length) '0') ++ s

/-- One payload byte rendered as in the source:
`b.toString(16).toUpperCase().padStart(2, '0')`. -/
def hexByte (b : Nat) : String := padZero 2 (hexUpper b)

/-- Hex join `data.map(hexByte).join(' ')` — used for `dataHex` and the raw dump. -/
def dataHexOf (data : List Nat) : String :=
  String.intercalate " " (data.map hexByte)

/-- The `default` branch of `parseDataValue`: raw hex dump of the payload. -/
def rawDump (data : List Nat) : String := "Raw: " ++ dataHexOf data

/-- The five bit-packed fields of a 29-bit extended CAN identifier. -/
structure FrameFields where
  pointToPoint : Nat
  commandCode : Nat
  destinationAddress : Nat
  sourceAddress : Nat
  continuation : Nat
  deriving Repr, DecidableEq

/-- Identifier encoding, as in `generateTestData`
(`(1 << 28) | (cmd << 20) | (dest << 12) | (src << 4)`), OR-ing each
shifted field.  The continuation flag at bit 3 is modelled from the spec
(§4.2: "continuation flag: bit 3"); `generateTestData` always leaves it 0. -/
def encodeIdentifier (f : FrameFields) : Nat :=
  f.pointToPoint <<< 28 ||| f.commandCode <<< 20 ||| f.destinationAddress <<< 12 |||
    f.sourceAddress <<< 4 ||| f.continuation <<< 3

/-- Identifier decoding, as in `logCanFrame`
(`ptp = (frameId >> 28) & 1`, `commandCode = (frameId >> 20) & 0xFF`,
`destination = (frameId >> 12) & 0xFF`, `source = (frameId >> 4) & 0xFF`).
The continuation flag at bit 3 is modelled from the spec (§4.2),
symmetrically to the other fields; `logCanFrame` does not extract it. -/
def decodeIdentifier (n : Nat) : FrameFields where
  pointToPoint := n >>> 28 &&& 1
  commandCode := n >>> 20 &&& 0xFF
  destinationAddress := n >>> 12 &&& 0xFF
  sourceAddress := n >>> 4 &&& 0xFF
  continuation := n >>> 3 &&& 1

lemma encodeIdentifier_eq_sum (f : FrameFields)
    (hp : f.pointToPoint < 2) (hc : f.commandCode < 256)
    (hd : f.destinationAddress < 256) (hs : f.sourceAddress < 256)
    (hk : f.continuation < 2) :
    encodeIdentifier f =
      f.pointToPoint * 2 ^ 28 + f.commandCode * 2 ^ 20 +
        f.destinationAddress * 2 ^ 12 + f.sourceAddress * 2 ^ 4 +
        f.continuation * 2 ^ 3 := by
  obtain ⟨p, c, d, s, k⟩ := f
  simp only [encodeIdentifier, Nat.shiftLeft_eq] at *
  have e20 : (2 : Nat) ^ 20 = 1048576 := by norm_num
  have e12 : (2 : Nat) ^ 12 = 4096 := by norm_num
  have e4 : (2 : Nat) ^ 4 = 16 := by norm_num
  have e3 : (2 : Nat) ^ 3 = 8 := by norm_num
  have e28 : (2 : Nat) ^ 28 = 268435456 := by norm_num
  have h1 : p * 2 ^ 28 ||| c * 2 ^ 20 = p * 2 ^ 28 + c * 2 ^ 20 := by
    rw [Nat.mul_comm p]
    exact (Nat.mul_add_lt_is_or (by omega) p).symm
  have h2 : p * 2 ^ 28 + c * 2 ^ 20 ||| d * 2 ^ 12 =
      p * 2 ^ 28 + c * 2 ^ 20 + d * 2 ^ 12 := by
    have hrw : p * 2 ^ 28 + c * 2 ^ 20 = 2 ^ 20 * (p * 2 ^ 8 + c) := by ring
    rw [hrw]
    exact (Nat.mul_add_lt_is_or (by omega) _).symm
  have h3 : p * 2 ^ 28 + c * 2 ^ 20 + d * 2 ^ 12 ||| s * 2 ^ 4 =
      p * 2 ^ 28 + c * 2 ^ 20 + d * 2 ^ 12 + s * 2 ^ 4 := by
    have hrw : p * 2 ^ 28 + c * 2 ^ 20 + d * 2 ^ 12 =
        2 ^ 12 * (p * 2 ^ 16 + c * 2 ^ 8 + d) := by ring
    rw [hrw]
    exact (Nat.mul_add_lt_is_or (by omega) _).symm
  have h4 : p * 2 ^ 28 + c * 2 ^ 20 + d * 2 ^ 12 + s * 2 ^ 4 ||| k * 2 ^ 3 =
      p * 2 ^ 28 + c * 2 ^ 20 + d * 2 ^ 12 + s * 2 ^ 4 + k * 2 ^ 3 := by
    have hrw : p * 2 ^ 28 + c * 2 ^ 20 + d * 2 ^ 12 + s * 2 ^ 4 =
        2 ^ 4 * (p * 2 ^ 24 + c * 2 ^ 16 + d * 2 ^ 8 + s) := by ring
    rw [hrw]
    exact (Nat.mul_add_lt_is_or (by omega) _).symm
  rw [h1, h2, h3, h4]

/-- C1: encoding a 5-tuple of in-range identifier fields and decoding the
resulting 29-bit identifier returns the same fields. -/
theorem decode_encode_identifier (f : FrameFields)
    (hp : f.pointToPoint < 2) (hc : f.commandCode < 256)
    (hd : f.destinationAddress < 256) (hs : f.sourceAddress < 256)
    (hk : f.continuation < 2) :
    decodeIdentifier (encodeIdentifier f) = f := by
  rw [encodeIdentifier_eq_sum f hp hc hd hs hk]
  obtain ⟨p, c, d, s, k⟩ := f
  simp only [decodeIdentifier, Nat.shiftRight_eq_div_pow, Nat.and_one_is_mod,
    show (0xFF : Nat) = 2 ^ 8 - 1 by norm_num, Nat.and_pow_two_sub_one_eq_mod,
    FrameFields.mk.injEq] at *
  have e28 : (2 : Nat) ^ 28 = 268435456 := by norm_num
  have e20 : (2 : Nat) ^ 20 = 1048576 := by norm_num
  have e12 : (2 : Nat) ^ 12 = 4096 := by norm_num
  have e8 : (2 : Nat) ^ 8 = 256 := by norm_num
  have e4 : (2 : Nat) ^ 4 = 16 := by norm_num
  have e3 : (2 : Nat) ^ 3 = 8 := by norm_num
  rw [e28, e20, e12, e8, e4, e3]
  refine ⟨by omega, by omega, by omega, by omega, by omega⟩

/-- Witness for C1 at a concrete field tuple. -/
theorem decode_encode_identifier_witness :
    decodeIdentifier (encodeIdentifier ⟨1, 0x82, 0x80, 0x01, 1⟩) =
      ⟨1, 0x82, 0x80, 0x01, 1⟩ :=
  decode_encode_identifier ⟨1, 0x82, 0x80, 0x01, 1⟩ (by decide) (by decide)
    (by decide) (by decide) (by decide)

/-- Little-endian 16-bit read at `off`: `(data[off+1] << 8) | data[off]`.
A JavaScript out-of-range index yields `undefined`, which the bitwise
operators coerce to 0; `List.getD _ 0` captures both cases. -/
def u16At (data : List Nat) (off : Nat) : Nat :=
  (data.getD (off + 1) 0) <<< 8 ||| data.getD off 0

/-- Little-endian 32-bit read at `off` with JavaScript semantics:
`(data[off+3] << 24) | (data[off+2] << 16) | (data[off+1] << 8) | data[off]`.
JavaScript `<<` and `|` work on two's-complement signed 32-bit values, so the
combined bit pattern is reinterpreted through `toInt32`. -/
def u32jsAt (data : List Nat) (off : Nat) : Int :=
  toInt32 ((data.getD (off + 3) 0) <<< 24 ||| (data.getD (off + 2) 0) <<< 16 |||
    (data.getD (off + 1) 0) <<< 8 ||| data.getD off 0)

/-- Ternary `raw > 32767 ? (raw - 65536) * 0.1 : raw * 0.1` — two's-complement
16-bit reconstruction with 0.1 scale, used for current (0x82) and
temperature (0x84). -/
def signed16Times01 (raw : Nat) : ℚ :=
  if raw > 32767 then ((raw : ℚ) - 65536) * (1 / 10) else (raw : ℚ) * (1 / 10)

/-- Rendering `q.toFixed(k)` for the exact rationals the decoder produces
(all are integer multiples of `10^(-k)`, where the JavaScript float and the
exact rational agree). -/
def fmtFixed (k : Nat) (q : ℚ) : String :=
  let n : Int := Rat.floor (q * (10 : ℚ) ^ k)
  let sign := if n < 0 then "-" else ""
  let m := n.natAbs
  sign ++ toString (m / 10 ^ k) ++ "." ++ padZero k (toString (m % 10 ^ k))

/-- Command-name table `getCommandName` from the debug store. -/
def getCommandName (code : Nat) : String :=
  match code with
  | 0x00 => "Shutdown"
  | 0x10 => "Force Output"
  | 0x11 => "Reset"
  | 0x80 => "Charge/Discharge Limits"
  | 0x81 => "SOC/SOH"
  | 0x82 => "Voltage/Current"
  | 0x83 => "Cell Voltage"
  | 0x84 => "Temperature"
  | 0x85 => "Operation Status"
  | 0x86 => "Accumulated Times"
  | 0x87 => "Accumulated Power"
  | 0x8F => "Software Version"
  | 0xC0 => "Alarm Status"
  | 0xD0 => "Debug Status"
  | _ => "Unknown (0x" ++ hexUpper code ++ ")"

/-- Current field of command 0x82: raw `(data[3] << 8) | data[2]`, then the
signed ternary of line 142. -/
def current82 (data : List Nat) : ℚ := signed16Times01 (u16At data 2)

/-- Voltage field of command 0x82: `((data[1] << 8) | data[0]) * 0.1`. -/
def voltage82 (data : List Nat) : ℚ := (u16At data 0 : ℚ) * (1 / 10)

/-- Charge energy of command 0x87:
`((data[3] << 24) | (data[2] << 16) | (data[1] << 8) | data[0]) * 0.1`. -/
def chargeEnergy87 (data : List Nat) : ℚ := (u32jsAt data 0 : ℚ) * (1 / 10)

/-- Discharge energy of command 0x87:
`((data[7] << 24) | (data[6] << 16) | (data[5] << 8) | data[4]) * 0.1`. -/
def dischargeEnergy87 (data : List Nat) : ℚ := (u32jsAt data 4 : ℚ) * (1 / 10)

/-- Active alarm bit positions of the 0xC0 branch: for `i` in 0..7 and
`bit` in 0..7, position `i*8+bit` is active when `(data[i] >> bit) & 1`
is truthy (i.e. equals 1). -/
def alarmBitPositions (data : List Nat) : List Nat :=
  (List.range 8).flatMap (fun i =>
    (List.range 8).filterMap (fun bit =>
      if (data.getD i 0) >>> bit &&& 1 = 1 then some (i * 8 + bit) else none))

/-- Payload decoder `parseDataValue(commandCode, data)` from the debug store.  Every
partial JavaScript operation inside (out-of-range indexing) yields
`undefined`, which the arithmetic coerces to 0 and the status lookups map
to the explicit fallback, so the `catch` branch returning the string
`Parse error` is unreachable; the embedding is total by construction. -/
def parseDataValue (commandCode : Nat) (data : List Nat) : String :=
  if data.length < 2 then "Insufficient data" else
  match commandCode with
  | 0x80 =>
    if data.length < 8 then "Insufficient data" else
    let chargeV : ℚ := (u16At data 0 : ℚ) * (1 / 10)
    let chargeI : ℚ := (u16At data 2 : ℚ) * (1 / 10)
    let dischargeV : ℚ := (u16At data 4 : ℚ) * (1 / 10)
    let dischargeI : ℚ := (u16At data 6 : ℚ) * (1 / 10)
    "Charge: " ++ fmtFixed 1 chargeV ++ "V/" ++ fmtFixed 1 chargeI ++
      "A, Discharge: " ++ fmtFixed 1 dischargeV ++ "V/" ++ fmtFixed 1 dischargeI ++ "A"
  | 0x81 =>
    if data.length < 6 then "Insufficient data" else
    let soc : ℚ := (u16At data 0 : ℚ) * (1 / 10)
    let soh : ℚ := (u16At data 2 : ℚ) * (1 / 10)
    let backup : Nat := u16At data 4
    "SOC: " ++ fmtFixed 1 soc ++ "%, SOH: " ++ fmtFixed 1 soh ++ "%, Backup: " ++
      toString backup ++ "min"
  | 0x82 =>
    if data.length < 4 then "Insufficient data" else
    let voltage := voltage82 data
    let current := current82 data
    let power : ℚ := voltage * abs current / 1000
    "Voltage: " ++ fmtFixed 1 voltage ++ "V, Current: " ++ fmtFixed 1 current ++
      "A, Power: " ++ fmtFixed 2 power ++ "kW"
  | 0x83 =>
    if data.length < 8 then "Insufficient data" else
    let maxV : ℚ := (u16At data 0 : ℚ) * (1 / 1000)
    let minV : ℚ := (u16At data 4 : ℚ) * (1 / 1000)
    "Max: " ++ fmtFixed 3 maxV ++ "V (P" ++ toString (data.getD 2 0) ++ "C" ++
      toString (data.getD 3 0) ++ "), Min: " ++ fmtFixed 3 minV ++ "V (P" ++
      toString (data.getD 6 0) ++ "C" ++ toString (data.getD 7 0) ++ ")"
  | 0x84 =>
    if data.length < 8 then "Insufficient data" else
    let maxT := signed16Times01 (u16At data 0)
    let minT := signed16Times01 (u16At data 4)
    "Max: " ++ fmtFixed 1 maxT ++ "°C (P" ++ toString (data.getD 2 0) ++ "S" ++
      toString (data.getD 3 0) ++ "), Min: " ++ fmtFixed 1 minT ++ "°C (P" ++
      toString (data.getD 6 0) ++ "S" ++ toString (data.getD 7 0) ++ ")"
  | 0x85 =>
    if data.length < 4 then "Insufficient data" else
    let sysStatus := (["PowerOn", "Start", "Alone", "Charge", "Discharge",
      "WaitCharge", "WaitDischarge", "Lock"]).getD (data.getD 0 0) "Unknown"
    let workStatus := (["Empty", "Boot", "Shutdown"]).getD (data.getD 1 0) "Unknown"
    let opStatus := (["Empty", "Normal", "Alarm", "Fault"]).getD (data.getD 2 0) "Unknown"
    "System: " ++ sysStatus ++ ", Work: " ++ workStatus ++ ", Op: " ++ opStatus
  | 0x86 =>
    if data.length < 4 then "Insufficient data" else
    "Charge cycles: " ++ toString (u16At data 0) ++ ", Discharge cycles: " ++
      toString (u16At data 2)
  | 0x87 =>
    if data.length < 8 then "Insufficient data" else
    "Charge: " ++ fmtFixed 1 (chargeEnergy87 data) ++ "kWh, Discharge: " ++
      fmtFixed 1 (dischargeEnergy87 data) ++ "kWh"
  | 0x8F =>
    "Version: " ++ String.mk ((data.filter (fun b => b != 0)).map (fun b => Char.ofNat b))
  | 0xC0 =>
    let bits := alarmBitPositions data
    if bits.length > 0 then
      "Alarms: " ++ String.intercalate ", " (bits.map (fun b => "Bit" ++ toString b))
    else "No alarms"
  | _ => rawDump data

/-- The caller-supplied part of a log entry
(`Omit<CanLogEntry, 'id' | 'timestamp' | ...>`). -/
structure EntryInput where
  direction : String
  frameId : Nat
  commandCode : Nat
  source : Nat
  destination : Nat
  data : List Nat
  deriving Repr, DecidableEq

/-- A debug log entry.  The wall-clock `timestamp: Date` field is outside
the embedding (no claim depends on it); all other fields are kept. -/
structure CanLogEntry where
  id : Nat
  direction : String
  frameId : Nat
  frameIdHex : String
  command : String
  commandCode : Nat
  source : Nat
  destination : Nat
  data : List Nat
  dataHex : String
  parsedValue : String
  deriving Repr, DecidableEq

/-- The module-level mutable state of the debug store. -/
structure DebugState where
  logs : List CanLogEntry
  isRecording : Bool
  logIdCounter : Nat
  maxLogs : Nat
  deriving Repr, DecidableEq

/-- Initial module state: `logs = []`, not recording, counter 0, max 1000. -/
def initState : DebugState :=
  { logs := [], isRecording := false, logIdCounter := 0, maxLogs := 1000 }

def startRecording (s : DebugState) : DebugState :=
  { s with isRecording := true, logs := [], logIdCounter := 0 }

def stopRecording (s : DebugState) : DebugState :=
  { s with isRecording := false }

def clearLogs (s : DebugState) : DebugState :=
  { s with logs := [], logIdCounter := 0 }

def setMaxLogs (max : Nat) (s : DebugState) : DebugState :=
  { s with maxLogs := max }

/-- JavaScript `arr.slice(-m)` for a non-negative count `m`: `-0 === 0`,
and `slice(0)` copies the whole array; for `m ≥ 1` it keeps the last
`min m arr.length` elements. -/
def jsSliceNeg (l : List α) (m : Nat) : List α :=
  if m = 0 then l else l.drop (l.length - m)

/-- The entry built inside `addLogEntry` from the input and the current
counter value. -/
def mkEntry (entry : EntryInput) (id : Nat) : CanLogEntry :=
  { id := id
    direction := entry.direction
    frameId := entry.frameId
    frameIdHex := "0x" ++ padZero 8 (hexUpper entry.frameId)
    command := getCommandName entry.commandCode
    commandCode := entry.commandCode
    source := entry.source
    destination := entry.destination
    data := entry.data
    dataHex := dataHexOf entry.data
    parsedValue := parseDataValue entry.commandCode entry.data }

/-- Model of `addLogEntry`: no-op when not recording; otherwise appends the new
entry with `id = logIdCounter++` and keeps `slice(-maxLogs)`. -/
def addLogEntry (entry : EntryInput) (s : DebugState) : DebugState :=
  if !s.isRecording then s else
  { s with
    logs := jsSliceNeg (s.logs ++ [mkEntry entry s.logIdCounter]) s.maxLogs
    logIdCounter := s.logIdCounter + 1 }

/-- Model of `logCanFrame`: decodes the 29-bit identifier fields and delegates to
`addLogEntry` (the `ptp` bit is computed in the source but not stored). -/
def logCanFrame (direction : String) (frameId : Nat) (data : List Nat)
    (s : DebugState) : DebugState :=
  if !s.isRecording then s else
  addLogEntry
    { direction := direction
      frameId := frameId
      commandCode := frameId >>> 20 &&& 0xFF
      source := frameId >>> 4 &&& 0xFF
      destination := frameId >>> 12 &&& 0xFF
      data := data } s

/-- One operation on the debug store. -/
inductive LogOp where
  | start
  | stop
  | clear
  | setMax (max : Nat)
  | append (entry : EntryInput)
  deriving Repr, DecidableEq

/-- One step of the store; also reports the sequence id assigned by an
`append` that happened while recording. -/
def stepOp (s : DebugState) : LogOp → DebugState × Option Nat
  | .start => (startRecording s, none)
  | .stop => (stopRecording s, none)
  | .clear => (clearLogs s, none)
  | .setMax m => (setMaxLogs m s, none)
  | .append e => (addLogEntry e s, if s.isRecording then some s.logIdCounter else none)

/-- Run a list of operations, collecting the assigned sequence ids in
order of assignment. -/
def runTrace (s : DebugState) : List LogOp → DebugState × List Nat
  | [] => (s, [])
  | op :: ops =>
    let s1 := (stepOp s op).1
    let r := runTrace s1 ops
    (r.1, (stepOp s op).2.toList ++ r.2)

/-- Run a list of operations, keeping only the final state. -/
def runOps (s : DebugState) (ops : List LogOp) : DebugState := (runTrace s ops).1

/-- Severity table `getAlarmSeverity` from the BMS store. -/
def getAlarmSeverity (bit : Nat) : Nat :=
  let level3 : List Nat := [0, 1, 14, 18, 19, 20, 21, 22, 23, 24, 25, 26,
    27, 28, 29, 30, 31, 32]
  let level2 : List Nat := [2, 3, 4, 5, 6, 7, 8, 9]
  if bit ∈ level3 then 3 else if bit ∈ level2 then 2 else 1

/-- Modelled from the spec: `maxSeverity = max(severity(b) for b in active)
or 0 if none active` (§4.4).  The computation lives in the Rust backend,
which is not under `src/`; only its output shape (`maxSeverity`) is seen by
the frontend store. -/
def maxSeverityOf (active : List Nat) : Nat :=
  (active.map getAlarmSeverity).foldl max 0

/-- Required payload length per command, as the spec's table states it
(spec-side definition, to be compared with `parseDataValue`): 8 bytes for
0x80/0x83/0x84/0x87, 6 for 0x81, 4 for 0x82/0x85/0x86. -/
def requiredLenSpec (cmd : Nat) : Option Nat :=
  if cmd = 0x80 ∨ cmd = 0x83 ∨ cmd = 0x84 ∨ cmd = 0x87 then some 8
  else if cmd = 0x81 then some 6
  else if cmd = 0x82 ∨ cmd = 0x85 ∨ cmd = 0x86 then some 4
  else none

/-- C2: for every command with a required length and every payload shorter
than it, decoding yields exactly the `Insufficient data` marker — no
record with partial fields. -/
theorem parseDataValue_insufficient (cmd n : Nat) (data : List Nat)
    (hreq : requiredLenSpec cmd = some n) (hlen : data.length < n) :
    parseDataValue cmd data = "Insufficient data" := by
  unfold requiredLenSpec at hreq
  rcases Nat.lt_or_ge data.length 2 with h2 | h2
  · unfold parseDataValue
    rw [if_pos h2]
  · split at hreq
    · rename_i hc
      injection hreq with hn
      subst hn
      rcases hc with rfl | rfl | rfl | rfl <;>
        (unfold parseDataValue; rw [if_neg (by omega)];
          split <;> first | rfl | omega | rw [if_pos (by omega)])
    · split at hreq
      · rename_i hc
        injection hreq with hn
        subst hn
        subst hc
        unfold parseDataValue
        rw [if_neg (by omega)]
        split <;> first | rfl | omega | rw [if_pos (by omega)]
      · split at hreq
        · rename_i hc
          injection hreq with hn
          subst hn
          rcases hc with rfl | rfl | rfl <;>
            (unfold parseDataValue; rw [if_neg (by omega)];
              split <;> first | rfl | omega | rw [if_pos (by omega)])
        · exact absurd hreq (by simp)

/-- Witness for C2: command 0x80 with a 1-byte payload. -/
theorem parseDataValue_insufficient_witness :
    parseDataValue 0x80 [0x42] = "Insufficient data" :=
  parseDataValue_insufficient 0x80 8 [0x42] (by norm_num [requiredLenSpec]) (by decide)

/-- C3 counterexample: an unknown command (0x42) with an empty payload hits
the global 2-byte guard and yields `Insufficient data`, not the raw hex
dump claimed for payloads of any length. -/
theorem parseDataValue_unknown_short_not_raw :
    parseDataValue 0x42 [] = "Insufficient data" ∧
      (parseDataValue 0x42 [] == rawDump []) = false := by
  exact ⟨rfl, rfl⟩

/-- C3 amended: for every command code outside the listed set and every
payload of length at least 2, decoding yields the raw hex dump. -/
theorem parseDataValue_unknown_raw (cmd : Nat) (data : List Nat)
    (hc : cmd ∉ ([0x00, 0x10, 0x11, 0x80, 0x81, 0x82, 0x83, 0x84, 0x85, 0x86,
      0x87, 0x8F, 0xC0, 0xD0] : List Nat)) (h2 : 2 ≤ data.length) :
    parseDataValue cmd data = rawDump data := by
  unfold parseDataValue
  rw [if_neg (by omega)]
  simp only [List.mem_cons, List.not_mem_nil, or_false, not_or] at hc
  split
  any_goals rfl
  all_goals omega

/-- Witness for the amended C3 at command 0x42 with a 2-byte payload. -/
theorem parseDataValue_unknown_raw_witness :
    parseDataValue 0x42 [0xAB, 0x01] = rawDump [0xAB, 0x01] :=
  parseDataValue_unknown_raw 0x42 [0xAB, 0x01] (by decide) (by decide)

/-- C4: at payload `[0,0,0,0x80,0,0,0,0]` under command 0x87 the code's
charge energy is negative (−214748364.8), because JavaScript `<<`/`|`
coerce to signed 32-bit; the spec's unsigned 32-bit LE reading would give
+214748364.8. -/
theorem chargeEnergy87_sign_bug :
    chargeEnergy87 [0x00, 0x00, 0x00, 0x80, 0x00, 0x00, 0x00, 0x00] =
      -(2147483648 : ℚ) / 10 ∧
    chargeEnergy87 [0x00, 0x00, 0x00, 0x80, 0x00, 0x00, 0x00, 0x00] < 0 := by
  have h : u32jsAt [0x00, 0x00, 0x00, 0x80, 0x00, 0x00, 0x00, 0x00] 0 =
      -2147483648 := by decide
  unfold chargeEnergy87
  rw [h]
  constructor <;> norm_num

/-- C7: the 0x82 current field at raw 0xFFFF decodes to −0.1 A, and in
general the signed reconstruction is `v*0.1` for `v ≤ 32767` and
`(v−65536)*0.1` for `v > 32767`. -/
theorem signed16_decode :
    (current82 [0x00, 0x00, 0xFF, 0xFF] = -(1 : ℚ) / 10) ∧
    (∀ v : Nat, v ≤ 32767 → signed16Times01 v = (v : ℚ) * (1 / 10)) ∧
    (∀ v : Nat, 32767 < v → signed16Times01 v = ((v : ℚ) - 65536) * (1 / 10)) := by
  have hraw : u16At [0x00, 0x00, 0xFF, 0xFF] 2 = 65535 := by decide
  refine ⟨?_, fun v hv => ?_, fun v hv => ?_⟩
  · unfold current82
    rw [hraw]
    unfold signed16Times01
    rw [if_pos (by norm_num)]
    norm_num
  · unfold signed16Times01
    rw [if_neg (by omega)]
  · unfold signed16Times01
    rw [if_pos (by omega)]

/-- Witness for C7 at raw value 0xFFFF. -/
theorem signed16_decode_witness :
    signed16Times01 0xFFFF = ((0xFFFF : ℚ) - 65536) * (1 / 10) :=
  signed16_decode.2.2 0xFFFF (by norm_num)

/-- C8: the severity table returns 3 on the listed level-3 bits, 2 on the
level-2 bits and 1 otherwise (bit 17 included); a mask with exactly bits 0
and 5 set has active set {0, 5} and maximum severity 3. -/
theorem alarm_severity_table :
    (∀ b : Nat, getAlarmSeverity b =
      if b ∈ ([0, 1, 14, 18, 19, 20, 21, 22, 23, 24, 25, 26, 27, 28, 29, 30,
        31, 32] : List Nat) then 3
      else if b ∈ ([2, 3, 4, 5, 6, 7, 8, 9] : List Nat) then 2 else 1) ∧
    alarmBitPositions [0x21, 0, 0, 0, 0, 0, 0, 0] = [0, 5] ∧
    maxSeverityOf (alarmBitPositions [0x21, 0, 0, 0, 0, 0, 0, 0]) = 3 := by
  exact ⟨fun b => rfl, by decide, by decide⟩

/-- C10: with `setMaxLogs(0)` the capacity bound is not enforced — each
recorded append grows the log by one (`slice(-0)` keeps everything); for
every maximum ≥ 1 the length after an append is `min (len+1) max`. -/
theorem addLogEntry_growth :
    (∀ (s : DebugState) (e : EntryInput), s.isRecording = true →
      (addLogEntry e (setMaxLogs 0 s)).logs.length = s.logs.length + 1) ∧
    (∀ (s : DebugState) (e : EntryInput), s.isRecording = true → 1 ≤ s.maxLogs →
      (addLogEntry e s).logs.length = min (s.logs.length + 1) s.maxLogs) := by
  constructor
  · intro s e h
    simp [addLogEntry, setMaxLogs, jsSliceNeg, h]
  · intro s e h hmax
    simp only [addLogEntry, setMaxLogs, jsSliceNeg, h, Bool.not_true,
      Bool.false_eq_true, if_false]
    rw [if_neg (by omega)]
    simp only [List.length_drop, List.length_append, List.length_cons,
      List.length_nil]
    omega

/-- Witness for C10 at a concrete recording state. -/
theorem addLogEntry_growth_witness :
    (addLogEntry ⟨"RX", 0, 0, 0, 0, []⟩
      (setMaxLogs 0 (⟨[], true, 0, 1000⟩ : DebugState))).logs.length = 1 :=
  addLogEntry_growth.1 ⟨[], true, 0, 1000⟩ ⟨"RX", 0, 0, 0, 0, []⟩ rfl

/-- C5 counterexample: `clearLogs` resets the id counter, so the sequence
start / append / clear / append assigns id 0 twice. -/
theorem sequence_ids_reused :
    (runTrace initState [LogOp.start, LogOp.append ⟨"RX", 0, 0, 0, 0, []⟩,
      LogOp.clear, LogOp.append ⟨"RX", 0, 0, 0, 0, []⟩]).2 = [0, 0] ∧
    decide (([0, 0] : List Nat).Nodup) = false := by
  exact ⟨rfl, rfl⟩

lemma trace_ids_ge_and_pairwise (ops : List LogOp) :
    ∀ s : DebugState, (∀ op ∈ ops, op ≠ LogOp.start ∧ op ≠ LogOp.clear) →
      (∀ x ∈ (runTrace s ops).2, s.logIdCounter ≤ x) ∧
        List.Pairwise (· < ·) (runTrace s ops).2 := by
  induction ops with
  | nil =>
    intro s h
    simp [runTrace]
  | cons op ops ih =>
    intro s h
    have hop := h op (by simp)
    have htail : ∀ o ∈ ops, o ≠ LogOp.start ∧ o ≠ LogOp.clear :=
      fun o ho => h o (by simp [ho])
    cases op with
    | start => exact absurd rfl hop.1
    | clear => exact absurd rfl hop.2
    | stop =>
      have hs := ih (stopRecording s) htail
      simpa [runTrace, stepOp, stopRecording] using hs
    | setMax m =>
      have hs := ih (setMaxLogs m s) htail
      simpa [runTrace, stepOp, setMaxLogs] using hs
    | append e =>
      rcases Bool.eq_false_or_eq_true s.isRecording with hrec | hrec
      · have hcnt : (addLogEntry e s).logIdCounter = s.logIdCounter + 1 := by
          simp [addLogEntry, hrec]
        obtain ⟨hge, hpw⟩ := ih (addLogEntry e s) htail
        rw [hcnt] at hge
        constructor
        · intro x hx
          simp only [runTrace, stepOp, hrec, Option.toList_some,
            List.singleton_append, List.mem_cons, if_true] at hx
          rcases hx with rfl | hx
          · exact Nat.le_refl _
          · have := hge x hx
            omega
        · simp only [runTrace, stepOp, hrec, Option.toList_some,
            List.singleton_append, if_true]
          refine List.Pairwise.cons ?_ hpw
          intro y hy
          have := hge y hy
          omega
      · have hstate : addLogEntry e s = s := by
          simp [addLogEntry, hrec]
        have hs := ih (addLogEntry e s) htail
        rw [hstate] at hs
        simpa [runTrace, stepOp, hrec, hstate] using hs

/-- C5 amended: within any operation sequence containing no
`startRecording` and no `clearLogs` (the two counter resets), every
assigned sequence id is strictly greater than all earlier ones, so no id
is reused within such a segment. -/
theorem assigned_ids_increasing (s : DebugState) (ops : List LogOp)
    (h : ∀ op ∈ ops, op ≠ LogOp.start ∧ op ≠ LogOp.clear) :
    List.Pairwise (· < ·) (runTrace s ops).2 :=
  (trace_ids_ge_and_pairwise ops s h).2

/-- Witness for the amended C5: two appends while recording. -/
theorem assigned_ids_increasing_witness :
    List.Pairwise (· < ·)
      ((runTrace (⟨[], true, 5, 1000⟩ : DebugState)
        [LogOp.append ⟨"RX", 0, 0, 0, 0, []⟩, LogOp.stop,
          LogOp.append ⟨"RX", 0, 0, 0, 0, []⟩]).2) :=
  assigned_ids_increasing ⟨[], true, 5, 1000⟩
    [LogOp.append ⟨"RX", 0, 0, 0, 0, []⟩, LogOp.stop,
      LogOp.append ⟨"RX", 0, 0, 0, 0, []⟩] (by decide)

/-- C6 counterexample: with the maximum configured to 0, one recorded
append makes the log longer than the configured maximum. -/
theorem log_cap_violated_at_zero_max :
    (⟨[], true, 0, 0⟩ : DebugState).maxLogs <
      (addLogEntry ⟨"RX", 0, 0, 0, 0, []⟩ (⟨[], true, 0, 0⟩ : DebugState)).logs.length := by
  decide

lemma runOps_cons (s : DebugState) (op : LogOp) (ops : List LogOp) :
    runOps s (op :: ops) = runOps (stepOp s op).1 ops := by
  simp [runOps, runTrace]

lemma drop_range' (j s n : Nat) :
    (List.range' s n).drop j = List.range' (s + j) (n - j) := by
  induction j generalizing s n with
  | zero => simp
  | succ j ih =>
    cases n with
    | zero => simp
    | succ m =>
      rw [List.range'_succ, List.drop_succ_cons, ih]
      have h1 : s + 1 + j = s + (j + 1) := by omega
      have h2 : m - j = m + 1 - (j + 1) := by omega
      rw [h1, h2]

lemma map_jsSliceNeg (f : α → β) (l : List α) (m : Nat) :
    (jsSliceNeg l m).map f = jsSliceNeg (l.map f) m := by
  unfold jsSliceNeg
  split <;> simp

lemma appendN_ids (e : EntryInput) (m : Nat) (hm : 1 ≤ m) (n : Nat) :
    ∀ s : DebugState, s.isRecording = true → s.maxLogs = m →
      s.logs.map CanLogEntry.id =
        List.range' (s.logIdCounter - min s.logIdCounter m) (min s.logIdCounter m) →
      (runOps s (List.replicate n (LogOp.append e))).logs.map CanLogEntry.id =
        List.range' (s.logIdCounter + n - min (s.logIdCounter + n) m)
          (min (s.logIdCounter + n) m) := by
  induction n with
  | zero =>
    intro s hrec hmax hids
    simpa [runOps, runTrace] using hids
  | succ n ih =>
    intro s hrec hmax hids
    have hstep : runOps s (List.replicate (n + 1) (LogOp.append e)) =
        runOps (addLogEntry e s) (List.replicate n (LogOp.append e)) := by
      simp [List.replicate_succ, runOps, runTrace, stepOp]
    rw [hstep]
    have hrec1 : (addLogEntry e s).isRecording = true := by
      simp [addLogEntry, hrec]
    have hmax1 : (addLogEntry e s).maxLogs = m := by
      simp [addLogEntry, hrec, hmax]
    have hcnt1 : (addLogEntry e s).logIdCounter = s.logIdCounter + 1 := by
      simp [addLogEntry, hrec]
    have hids1 : (addLogEntry e s).logs.map CanLogEntry.id =
        List.range' ((addLogEntry e s).logIdCounter -
            min (addLogEntry e s).logIdCounter m)
          (min (addLogEntry e s).logIdCounter m) := by
      have hlogs : (addLogEntry e s).logs =
          jsSliceNeg (s.logs ++ [mkEntry e s.logIdCounter]) s.maxLogs := by
        simp [addLogEntry, hrec]
      rw [hlogs, hcnt1, map_jsSliceNeg, List.map_append, hids, hmax]
      simp only [List.map_cons, List.map_nil]
      have hk : min s.logIdCounter m ≤ s.logIdCounter := Nat.min_le_left _ _
      have hcat : List.range' (s.logIdCounter - min s.logIdCounter m)
            (min s.logIdCounter m) ++ [(mkEntry e s.logIdCounter).id] =
          List.range' (s.logIdCounter - min s.logIdCounter m)
            (min s.logIdCounter m + 1) := by
        have hid : (mkEntry e s.logIdCounter).id = s.logIdCounter := rfl
        rw [hid, List.range'_concat]
        have : s.logIdCounter - min s.logIdCounter m + 1 * min s.logIdCounter m =
            s.logIdCounter := by omega
        rw [this]
      rw [hcat]
      unfold jsSliceNeg
      rw [if_neg (by omega), List.length_range', drop_range']
      have h1 : s.logIdCounter - min s.logIdCounter m +
          (min s.logIdCounter m + 1 - m) =
          s.logIdCounter + 1 - min (s.logIdCounter + 1) m := by omega
      have h2 : min s.logIdCounter m + 1 - (min s.logIdCounter m + 1 - m) =
          min (s.logIdCounter + 1) m := by omega
      rw [h1, h2]
    have hres := ih (addLogEntry e s) hrec1 hmax1 hids1
    rw [hcnt1] at hres
    rw [hres]
    have h3 : s.logIdCounter + 1 + n = s.logIdCounter + (n + 1) := by omega
    rw [h3]

/-- C6 amended: from a fresh recording with maximum 1000, appending 1001
entries leaves exactly the entries with sequence ids 1..1000 in order (the
oldest evicted); and for every maximum ≥ 1 the log length never exceeds
the maximum after a recorded append. -/
theorem debugLog_fifo_cap :
    ((runOps initState (LogOp.start :: List.replicate 1001
        (LogOp.append ⟨"RX", 0, 0, 0, 0, []⟩))).logs.map CanLogEntry.id =
      List.range' 1 1000) ∧
    (∀ (s : DebugState) (e : EntryInput), s.isRecording = true → 1 ≤ s.maxLogs →
      (addLogEntry e s).logs.length ≤ s.maxLogs) := by
  constructor
  · have hstep := runOps_cons initState LogOp.start
      (List.replicate 1001 (LogOp.append ⟨"RX", 0, 0, 0, 0, []⟩))
    have hred : (stepOp initState LogOp.start).1 = startRecording initState := rfl
    rw [hred] at hstep
    rw [hstep]
    have h := appendN_ids ⟨"RX", 0, 0, 0, 0, []⟩ 1000 (by norm_num) 1001
      (startRecording initState) rfl rfl rfl
    rw [h]
    congr 1
  · intro s e hrec hmax
    simp only [addLogEntry, jsSliceNeg, hrec, Bool.not_true,
      Bool.false_eq_true, if_false]
    rw [if_neg (by omega)]
    simp only [List.length_drop, List.length_append, List.length_cons,
      List.length_nil]
    omega

/-- Witness for the amended C6 at a concrete recording state. -/
theorem debugLog_fifo_cap_witness :
    (addLogEntry ⟨"RX", 0, 0, 0, 0, []⟩ (⟨[], true, 0, 1000⟩ : DebugState)).logs.length ≤
      1000 :=
  debugLog_fifo_cap.2 ⟨[], true, 0, 1000⟩ ⟨"RX", 0, 0, 0, 0, []⟩ rfl (by norm_num)

/-- C9: the payload decoder is total and the `catch` fallback is dead
code — for every command code and payload, `parseDataValue` returns a
branch string and never the exception marker `Parse error`. -/
theorem parseDataValue_never_parse_error (cmd : Nat) (data : List Nat) :
    (parseDataValue cmd data == "Parse error") = false := by
  unfold parseDataValue rawDump
  split
  · rfl
  · split <;> (try dsimp only) <;> try split
    all_goals rfl
